import Mathlib

/-!
Verification development for the UniqueDeep streaming-event normalizer:
a shallow embedding of `src/uniquedeep/stream/utils.py`,
`src/uniquedeep/stream/formatter.py`, `src/uniquedeep/stream/tracker.py`,
`src/uniquedeep/stream/emitter.py`, the SSE frame encoder of
`src/uniquedeep/web_api.py`, and the `stream_events` ingestion loop of
`src/uniquedeep/agent.py`, together with theorems settling the frozen
claims about them.
-/

namespace UniqueDeep

/-! ## JSON values

Python's structured data as handled by the stdlib `json` module:
`None`/`bool`/number/`str`/`list`/`dict`.  Numbers keep their raw numeral
text (no claim in scope depends on numeric semantics). -/

inductive Json where
  | null : Json
  | bool (b : Bool) : Json
  | num (raw : String) : Json
  | str (s : String) : Json
  | arr (items : List Json) : Json
  | obj (fields : List (String × Json)) : Json
deriving Repr

/-! ## Python string primitives

The Python sources operate on `str` via `strip`, `startswith`, `endswith`,
`in` (substring), slicing and `split("\n", 2)`.  We embed strings as their
character lists for direct structural computation. -/

/-- Characters stripped by Python's `str.strip()` (ASCII whitespace). -/
def isPyWs (c : Char) : Bool :=
  c = ' ' || c = '\t' || c = '\n' || c = '\r' || c = '\x0b' || c = '\x0c'

/-- Python `s.strip()`. -/
def pyStrip (s : String) : String :=
  ⟨((s.data.dropWhile isPyWs).reverse.dropWhile isPyWs).reverse⟩

/-- Python `s.startswith(pre)`. -/
def pyStartsWith (s pre : String) : Bool :=
  pre.data.isPrefixOf s.data

/-- Python `s.endswith(suf)`. -/
def pyEndsWith (s suf : String) : Bool :=
  suf.data.isSuffixOf s.data

/-- Contiguous-sublist search on character lists. -/
def subSearch (pat : List Char) : List Char → Bool
  | [] => pat.isEmpty
  | c :: cs => pat.isPrefixOf (c :: cs) || subSearch pat cs

/-- Python `pat in s` (substring containment). -/
def pyContains (s pat : String) : Bool :=
  subSearch pat.data s.data

/-- Python `s[:n]` for a nonnegative `n`. -/
def pyTake (s : String) (n : Nat) : String :=
  ⟨s.data.take n⟩

/-- Splits off the text before the first newline; returns the remainder
after that newline when one exists. -/
def breakAtNl : List Char → List Char × Option (List Char)
  | [] => ([], none)
  | c :: cs =>
    if c = '\n' then ([], some cs)
    else
      let (a, r) := breakAtNl cs
      (c :: a, r)

/-- Python `s.split("\n", 2)`: at most two splits, the final component
keeps any further newlines. -/
def pySplitNl2 (s : String) : List String :=
  match breakAtNl s.data with
  | (a, none) => [⟨a⟩]
  | (a, some r1) =>
    match breakAtNl r1 with
    | (b, none) => [⟨a⟩, ⟨b⟩]
    | (b, some r2) => [⟨a⟩, ⟨b⟩, ⟨r2⟩]

/-! ## Model of the stdlib structured-data parser (`json.loads`)

The repository calls Python's `json.loads`; this is a faithful executable
model of its grammar (objects, arrays, strings with the standard
single-character escapes, numerals, literals), sufficient for every
content the claims evaluate.  `\uXXXX` escapes are out of scope. -/

/-- JSON inter-token whitespace (space, tab, newline, carriage return). -/
def skipWs : List Char → List Char
  | [] => []
  | c :: cs =>
    if c = ' ' || c = '\t' || c = '\n' || c = '\r' then skipWs cs
    else c :: cs

/-- Parses the body of a JSON string after its opening quote, consuming
the closing quote; decodes single-character escapes. -/
def parseStringBody : Nat → List Char → Option (String × List Char)
  | 0, _ => none
  | Nat.succ fuel, l =>
    match l with
    | [] => none
    | c :: cs =>
      if c = '\x22' then some ("", cs)
      else if c = '\\' then
        match cs with
        | [] => none
        | e :: cs2 =>
          let dec : Option Char :=
            if e = '\x22' then some '\x22'
            else if e = '\\' then some '\\'
            else if e = '/' then some '/'
            else if e = 'n' then some '\n'
            else if e = 't' then some '\t'
            else if e = 'r' then some '\r'
            else if e = 'b' then some '\x08'
            else if e = 'f' then some '\x0c'
            else none
          match dec with
          | none => none
          | some ch =>
            match parseStringBody fuel cs2 with
            | some (rest, rem) => some (⟨ch :: rest.data⟩, rem)
            | none => none
      else
        match parseStringBody fuel cs with
        | some (rest, rem) => some (⟨c :: rest.data⟩, rem)
        | none => none

/-- Takes a maximal run of decimal digits. -/
def takeDigits : List Char → List Char × List Char
  | [] => ([], [])
  | c :: cs =>
    if c.isDigit then
      let (d, r) := takeDigits cs
      (c :: d, r)
    else ([], c :: cs)

/-- Parses the optional fractional part of a numeral. -/
def parseFrac : List Char → Option (List Char × List Char)
  | [] => some ([], [])
  | c :: cs =>
    if c = '.' then
      match takeDigits cs with
      | ([], _) => none
      | (ds, r) => some ('.' :: ds, r)
    else some ([], c :: cs)

/-- Parses the optional exponent part of a numeral. -/
def parseExp : List Char → Option (List Char × List Char)
  | [] => some ([], [])
  | c :: cs =>
    if c = 'e' || c = 'E' then
      let (sgn, r1) :=
        match cs with
        | [] => (([] : List Char), ([] : List Char))
        | d :: ds => if d = '+' || d = '-' then ([d], ds) else ([], d :: ds)
      match takeDigits r1 with
      | ([], _) => none
      | (ds, r2) => some (c :: (sgn ++ ds), r2)
    else some ([], c :: cs)

/-- Parses a JSON numeral, returning its raw text. -/
def parseNumber (l : List Char) : Option (String × List Char) :=
  let (sign, l1) :=
    match l with
    | [] => (([] : List Char), ([] : List Char))
    | c :: cs => if c = '-' then ([c], cs) else ([], c :: cs)
  match takeDigits l1 with
  | ([], _) => none
  | (ds, r1) =>
    match parseFrac r1 with
    | none => none
    | some (fs, r2) =>
      match parseExp r2 with
      | none => none
      | some (es, r3) => some (⟨sign ++ ds ++ fs ++ es⟩, r3)

/-- Result of one recursive-descent step. -/
inductive POut where
  | val (v : Json) (rest : List Char)
  | fieldList (fs : List (String × Json)) (rest : List Char)
  | itemList (vs : List Json) (rest : List Char)

/-- What the current recursive-descent step is parsing. -/
inductive PMode where
  | value
  | fieldSeq
  | itemSeq

/-- Fueled recursive-descent core: a value, a nonempty object member
sequence, or a nonempty array item sequence. -/
def parseCore : Nat → PMode → List Char → Option POut
  | 0, _, _ => none
  | Nat.succ fuel, PMode.value, l =>
    match skipWs l with
    | [] => none
    | c :: cs =>
      if c = '\x7b' then
        match skipWs cs with
        | '\x7d' :: r => some (POut.val (Json.obj []) r)
        | l2 =>
          match parseCore fuel PMode.fieldSeq l2 with
          | some (POut.fieldList fs r) => some (POut.val (Json.obj fs) r)
          | _ => none
      else if c = '[' then
        match skipWs cs with
        | ']' :: r => some (POut.val (Json.arr []) r)
        | l2 =>
          match parseCore fuel PMode.itemSeq l2 with
          | some (POut.itemList vs r) => some (POut.val (Json.arr vs) r)
          | _ => none
      else if c = '\x22' then
        match parseStringBody (cs.length + 1) cs with
        | some (s, r) => some (POut.val (Json.str s) r)
        | none => none
      else if c = 't' then
        match cs with
        | 'r' :: 'u' :: 'e' :: r => some (POut.val (Json.bool true) r)
        | _ => none
      else if c = 'f' then
        match cs with
        | 'a' :: 'l' :: 's' :: 'e' :: r => some (POut.val (Json.bool false) r)
        | _ => none
      else if c = 'n' then
        match cs with
        | 'u' :: 'l' :: 'l' :: r => some (POut.val Json.null r)
        | _ => none
      else
        match parseNumber (c :: cs) with
        | some (raw, r) => some (POut.val (Json.num raw) r)
        | none => none
  | Nat.succ fuel, PMode.fieldSeq, l =>
    match skipWs l with
    | '\x22' :: cs =>
      match parseStringBody (cs.length + 1) cs with
      | none => none
      | some (key, r1) =>
        match skipWs r1 with
        | ':' :: r2 =>
          match parseCore fuel PMode.value r2 with
          | some (POut.val v r3) =>
            (match skipWs r3 with
             | ',' :: r4 =>
               match parseCore fuel PMode.fieldSeq r4 with
               | some (POut.fieldList rest r5) =>
                 some (POut.fieldList ((key, v) :: rest) r5)
               | _ => none
             | '\x7d' :: r4 => some (POut.fieldList [(key, v)] r4)
             | _ => none)
          | _ => none
        | _ => none
    | _ => none
  | Nat.succ fuel, PMode.itemSeq, l =>
    match parseCore fuel PMode.value l with
    | some (POut.val v r) =>
      (match skipWs r with
       | ',' :: r2 =>
         match parseCore fuel PMode.itemSeq r2 with
         | some (POut.itemList rest r3) => some (POut.itemList (v :: rest) r3)
         | _ => none
       | ']' :: r2 => some (POut.itemList [v] r2)
       | _ => none)
    | _ => none

/-- Model of Python `json.loads`: parse one value, then require only
trailing whitespace. -/
def parseJson (s : String) : Option Json :=
  match parseCore (s.data.length + 2) PMode.value s.data with
  | some (POut.val v rest) => if (skipWs rest).isEmpty then some v else none
  | _ => none

/-! ## stream/utils.py -/

/-- Status-marker constant `SUCCESS_PREFIX = "[OK]"` of `stream/utils.py`. -/
def successMark : String := "[OK]"

/-- Status-marker constant `FAILURE_PREFIX = "[FAILED]"` of `stream/utils.py`. -/
def failureMark : String := "[FAILED]"

/-- Error-pattern substrings shared by `utils.is_success` and
`ToolResultFormatter._is_error`. -/
def errorPatterns : List String :=
  ["Traceback (most recent call last)", "Exception:", "Error:"]

/-- Embedding of `utils.is_success`: strip, check the status markers,
otherwise default to success unless an error pattern occurs. -/
def is_success (content0 : String) : Bool :=
  let content := pyStrip content0
  if pyStartsWith content successMark then true
  else if pyStartsWith content failureMark then false
  else !(errorPatterns.any (fun p => pyContains content p))

/-- Embedding of `utils.truncate`: cut to `max_length` characters and
append the truncation suffix when anything was cut. -/
def truncate (content : String) (max_length : Nat) (suffix : String) : String :=
  if content.data.length > max_length then pyTake content max_length ++ suffix
  else content

/-! ## stream/formatter.py (`ToolResultFormatter`) -/

/-- The `ContentType` enum of `stream/formatter.py`. -/
inductive ContentType where
  | success
  | error
  | json
  | markdown
  | text
deriving Repr, DecidableEq

/-- Embedding of `ToolResultFormatter._extract_body`:
`lines = content.split("\n", 2); return lines[2].strip() if len(lines) > 2 else ""`. -/
def extract_body (content : String) : String :=
  match pySplitNl2 content with
  | _ :: _ :: third :: _ => pyStrip third
  | _ => ""

/-- Embedding of `ToolResultFormatter._is_json`: non-empty stripped
content delimited by matching braces or brackets that the structured-data
parser accepts. -/
def is_json (content0 : String) : Bool :=
  let content := pyStrip content0
  if content = "" then false
  else if (pyStartsWith content "\x7b" && pyEndsWith content "\x7d")
      || (pyStartsWith content "[" && pyEndsWith content "]") then
    (parseJson content).isSome
  else false

/-- Embedding of `ToolResultFormatter._is_error`. -/
def is_error (content : String) : Bool :=
  errorPatterns.any (fun p => pyContains content p)

/-- Markdown pattern substrings of `ToolResultFormatter._is_markdown`. -/
def mdPatterns : List String := ["```", "**", "##", "- **"]

/-- Embedding of `ToolResultFormatter._is_markdown`. -/
def is_markdown (content : String) : Bool :=
  pyStartsWith content "#" || mdPatterns.any (fun p => pyContains content p)

/-- Embedding of `ToolResultFormatter.detect_type` with its exact
check order. -/
def detect_type (content0 : String) : ContentType :=
  let content := pyStrip content0
  if pyStartsWith content successMark then
    if is_json (extract_body content) then ContentType.json
    else ContentType.success
  else if pyStartsWith content failureMark then ContentType.error
  else if is_json content then ContentType.json
  else if is_error content then ContentType.error
  else if is_markdown content then ContentType.markdown
  else ContentType.text

/-- Spec-side body extraction, for comparison with `extract_body`.
Modelled from the spec's words: "strip the marker line, and re-check
whether the remaining body parses" — the body is everything after the
first newline, stripped; empty when there is no newline. -/
def extract_body_spec (content : String) : String :=
  match breakAtNl content.data with
  | (_, some rest) => pyStrip ⟨rest⟩
  | (_, none) => ""

/-! ## stream/tracker.py (`ToolCallTracker`)

Python's insertion-ordered `dict` is embedded as an association list;
the tracker's operations are pure state transformers. -/

/-- The `ToolCallInfo` dataclass of `stream/tracker.py`. -/
structure ToolCallInfo where
  id : String
  name : String
  args : Json
  emitted : Bool
  args_complete : Bool
  json_buffer : String
deriving Repr

/-- The `ToolCallTracker` state: `_calls` (insertion-ordered dict) and
`_last_tool_id`. -/
structure ToolCallTracker where
  calls : List (String × ToolCallInfo)
  last_tool_id : Option String
deriving Repr

/-- A freshly constructed tracker (`ToolCallTracker.__init__`). -/
def ToolCallTracker.init : ToolCallTracker := ⟨[], none⟩

/-- Dictionary lookup on the underlying association list. -/
def lookupInfo (l : List (String × ToolCallInfo)) (k : String) : Option ToolCallInfo :=
  (l.find? (fun p => p.1 == k)).map (fun p => p.2)

/-- Embedding of `ToolCallTracker.get`: dictionary lookup. -/
def ToolCallTracker.get (t : ToolCallTracker) (tool_id : String) : Option ToolCallInfo :=
  lookupInfo t.calls tool_id

/-- In-place mutation of one keyed record, as an association-list map. -/
def mapVal (l : List (String × ToolCallInfo)) (tool_id : String)
    (f : ToolCallInfo → ToolCallInfo) : List (String × ToolCallInfo) :=
  l.map (fun p => (p.1, if p.1 == tool_id then f p.2 else p.2))

/-- The record created by `ToolCallTracker.update` for an unseen id
(`name or ""`, `args or \x7b\x7d`, the passed `args_complete`). -/
def newInfo (tool_id : String) (name : Option String)
    (args : Option (List (String × Json))) (args_complete : Bool) : ToolCallInfo :=
  { id := tool_id
    name := name.getD ""
    args := Json.obj (args.getD [])
    emitted := false
    args_complete := args_complete
    json_buffer := "" }

/-- Merge step `if name: info.name = name` of `ToolCallTracker.update`
(Python truthiness: `None` and `""` do not overwrite). -/
def mergeName (name : Option String) (info : ToolCallInfo) : ToolCallInfo :=
  match name with
  | some s => if s ≠ "" then { info with name := s } else info
  | none => info

/-- Merge step `if args: info.args = args` of `ToolCallTracker.update`
(Python truthiness: `None` and `\x7b\x7d` do not overwrite). -/
def mergeArgs (args : Option (List (String × Json))) (info : ToolCallInfo) :
    ToolCallInfo :=
  match args with
  | some l => if l.isEmpty then info else { info with args := Json.obj l }
  | none => info

/-- Merge step `if args_complete: info.args_complete = True` of
`ToolCallTracker.update` (only ever raised to `True`). -/
def mergeAC (args_complete : Bool) (info : ToolCallInfo) : ToolCallInfo :=
  if args_complete then { info with args_complete := true } else info

/-- The merge performed by `ToolCallTracker.update` on an existing
record: the three conditional mutations in source order. -/
def mergeUpdate (name : Option String) (args : Option (List (String × Json)))
    (args_complete : Bool) (info : ToolCallInfo) : ToolCallInfo :=
  mergeAC args_complete (mergeArgs args (mergeName name info))

/-- Embedding of `ToolCallTracker.update`: create-or-merge; only a new
record remembers its id as `_last_tool_id`. -/
def ToolCallTracker.update (t : ToolCallTracker) (tool_id : String)
    (name : Option String) (args : Option (List (String × Json)))
    (args_complete : Bool) : ToolCallTracker :=
  if (t.get tool_id).isNone then
    { calls := t.calls ++ [(tool_id, newInfo tool_id name args args_complete)]
      last_tool_id := some tool_id }
  else
    { calls := mapVal t.calls tool_id (mergeUpdate name args args_complete)
      last_tool_id := t.last_tool_id }

/-- Embedding of `ToolCallTracker.append_json_delta`: append the fragment
to the buffer of the record keyed by `_last_tool_id`, when that id is
truthy and tracked; otherwise do nothing.  The `index` argument is unused
by the source as well. -/
def ToolCallTracker.append_json_delta (t : ToolCallTracker)
    (fragment : String) (index : Nat) : ToolCallTracker :=
  match t.last_tool_id with
  | none => t
  | some tid =>
    if tid ≠ "" && (t.get tid).isSome then
      { t with calls := mapVal t.calls tid (fun info =>
          { info with json_buffer := info.json_buffer ++ fragment }) }
    else t

/-- Finalization of one record (`ToolCallTracker.finalize_all` loop body):
parse a non-empty buffer, replacing `args` only on success, clear the
buffer, and mark the arguments complete unconditionally. -/
def finalizeInfo (info : ToolCallInfo) : ToolCallInfo :=
  let info1 :=
    if info.json_buffer ≠ "" then
      match parseJson info.json_buffer with
      | some v => { info with args := v, json_buffer := "" }
      | none => { info with json_buffer := "" }
    else info
  { info1 with args_complete := true }

/-- Embedding of `ToolCallTracker.finalize_all`. -/
def ToolCallTracker.finalize_all (t : ToolCallTracker) : ToolCallTracker :=
  { t with calls := t.calls.map (fun p => (p.1, finalizeInfo p.2)) }

/-- Embedding of `ToolCallTracker.is_ready`: the record exists, has a
truthy name, and was not emitted. -/
def ToolCallTracker.is_ready (t : ToolCallTracker) (tool_id : String) : Bool :=
  match t.get tool_id with
  | none => false
  | some info => info.name ≠ "" && !info.emitted

/-- Embedding of `ToolCallTracker.mark_emitted`. -/
def ToolCallTracker.mark_emitted (t : ToolCallTracker) (tool_id : String) : ToolCallTracker :=
  { t with calls := mapVal t.calls tool_id (fun info => { info with emitted := true }) }

/-- Embedding of `ToolCallTracker.get_all`. -/
def ToolCallTracker.get_all (t : ToolCallTracker) : List ToolCallInfo :=
  t.calls.map (fun p => p.2)

/-- Embedding of `ToolCallTracker.clear`: `_calls.clear()` only —
`_last_tool_id` is left as it was. -/
def ToolCallTracker.clear (t : ToolCallTracker) : ToolCallTracker :=
  { t with calls := [] }

/-! ### Operation traces over a tracker -/

/-- One public tracker call, for stating trace properties. -/
inductive TrackerOp where
  | update (tool_id : String) (name : Option String)
      (args : Option (List (String × Json))) (args_complete : Bool)
  | appendDelta (fragment : String)
  | finalizeAll
  | markEmitted (tool_id : String)
  | clear
deriving Repr

/-- Applies one tracker call. -/
def applyOp (t : ToolCallTracker) : TrackerOp → ToolCallTracker
  | TrackerOp.update tool_id name args ac => t.update tool_id name args ac
  | TrackerOp.appendDelta s => t.append_json_delta s 0
  | TrackerOp.finalizeAll => t.finalize_all
  | TrackerOp.markEmitted tool_id => t.mark_emitted tool_id
  | TrackerOp.clear => t.clear

/-- Runs a call sequence from a given state. -/
def runOpsFrom (t : ToolCallTracker) (ops : List TrackerOp) : ToolCallTracker :=
  ops.foldl applyOp t

/-- Runs a call sequence on a freshly constructed tracker. -/
def runOps (ops : List TrackerOp) : ToolCallTracker :=
  runOpsFrom ToolCallTracker.init ops

/-- Whether a call is an `update` naming the given id. -/
def opUpdatesId : TrackerOp → String → Bool
  | TrackerOp.update tid _ _ _, tool_id => tid == tool_id
  | _, _ => false

/-- Whether a call is an `update` at all. -/
def isUpdateOp : TrackerOp → Bool
  | TrackerOp.update _ _ _ _ => true
  | _ => false

/-! ## stream/emitter.py (`StreamEventEmitter`) -/

/-- The `StreamEvent` dataclass: a type tag and a payload dictionary. -/
structure StreamEvent where
  type : String
  data : List (String × Json)
deriving Repr

/-- Python `d.get(k)` on a payload dictionary. -/
def dictGet (d : List (String × Json)) (k : String) : Option Json :=
  (d.find? (fun p => p.1 == k)).map (fun p => p.2)

namespace StreamEventEmitter

/-- Embedding of `StreamEventEmitter.thinking`. -/
def thinking (content : String) (thinking_id : Int) : StreamEvent :=
  ⟨"thinking",
    [("type", Json.str "thinking"), ("content", Json.str content),
     ("id", Json.num (toString thinking_id))]⟩

/-- Embedding of `StreamEventEmitter.text`. -/
def text (content : String) : StreamEvent :=
  ⟨"text", [("type", Json.str "text"), ("content", Json.str content)]⟩

/-- Embedding of `StreamEventEmitter.tool_call`. -/
def tool_call (name : String) (args : Json) (tool_id : String) : StreamEvent :=
  ⟨"tool_call",
    [("type", Json.str "tool_call"), ("name", Json.str name),
     ("args", args), ("id", Json.str tool_id)]⟩

/-- Embedding of `StreamEventEmitter.tool_result`. -/
def tool_result (name : String) (content : String) (success : Bool) : StreamEvent :=
  ⟨"tool_result",
    [("type", Json.str "tool_result"), ("name", Json.str name),
     ("content", Json.str content), ("success", Json.bool success)]⟩

/-- Embedding of `StreamEventEmitter.done`. -/
def done (response : String) : StreamEvent :=
  ⟨"done", [("type", Json.str "done"), ("response", Json.str response)]⟩

/-- Embedding of `StreamEventEmitter.error`. -/
def error (message : String) : StreamEvent :=
  ⟨"error", [("type", Json.str "error"), ("message", Json.str message)]⟩

end StreamEventEmitter

/-! ## web_api.py SSE frame encoding -/

mutual

/-- Serialization of a JSON value, modelling `json.dumps(...,
ensure_ascii=False)` with its default `", "`/`": "` separators. -/
def jsonDumps : Json → String
  | Json.null => "null"
  | Json.bool b => if b then "true" else "false"
  | Json.num raw => raw
  | Json.str s => "\x22" ++ s ++ "\x22"
  | Json.arr items => "[" ++ jsonDumpsItems items ++ "]"
  | Json.obj fields => "\x7b" ++ jsonDumpsFields fields ++ "\x7d"

/-- Serializes array items, comma-separated. -/
def jsonDumpsItems : List Json → String
  | [] => ""
  | [v] => jsonDumps v
  | v :: rest => jsonDumps v ++ ", " ++ jsonDumpsItems rest

/-- Serializes object members, comma-separated. -/
def jsonDumpsFields : List (String × Json) → String
  | [] => ""
  | [(k, v)] => "\x22" ++ k ++ "\x22: " ++ jsonDumps v
  | (k, v) :: rest =>
    "\x22" ++ k ++ "\x22: " ++ jsonDumps v ++ ", " ++ jsonDumpsFields rest

end

/-- Embedding of `web_api._to_sse_frame`: one SSE frame per event, with
the `error` transport label renamed to `agent_error` and the payload
serialized unchanged. -/
def to_sse_frame (event_type : String) (payload : List (String × Json)) : String :=
  let sse_event := if event_type = "error" then "agent_error" else event_type
  "event: " ++ sse_event ++ "\ndata: " ++ jsonDumps (Json.obj payload) ++ "\n\n"

/-! ## agent.py `stream_events` ingestion loop

The upstream transport is a black-box producer of an ordered finite
sequence of chunks for one turn; a failing turn delivers some chunks and
then raises with a message.  Chunk contents are the discriminated union
the source's duck-typed dispatch distinguishes. -/

/-- One content block of an AI message chunk
(`_process_chunk_content` dispatch on `block["type"]`). -/
inductive Block where
  | thinking (text : String)
  | text (text : String)
  | toolUse (id : String) (name : String) (input : Option (List (String × Json)))
  | inputJsonDelta (fragment : String)
  | toolCallChunk (id : String) (name : String) (args : String)
  | unknown
deriving Repr

/-- The `content` attribute of an AI message chunk: a plain string or a
list of typed blocks. -/
inductive ChunkContent where
  | str (s : String)
  | blocks (bs : List Block)
deriving Repr

/-- One entry of `chunk.tool_calls`. -/
structure ToolCallDict where
  id : String
  name : String
  args : Option (List (String × Json))
deriving Repr

/-- One upstream chunk: an AI message chunk, a tool result message
(`chunk.type == "tool"`), or anything else (skipped). -/
inductive Chunk where
  | ai (content : ChunkContent) (tool_calls : List ToolCallDict)
  | toolMsg (name : String) (content : String)
  | other
deriving Repr

/-- Embedding of one `_process_chunk_content` block iteration:
returns the updated tracker and the events yielded. -/
def process_block (tracker : ToolCallTracker) :
    Block → ToolCallTracker × List StreamEvent
  | Block.thinking txt =>
    (tracker, if txt ≠ "" then [StreamEventEmitter.thinking txt 0] else [])
  | Block.text txt =>
    (tracker, if txt ≠ "" then [StreamEventEmitter.text txt] else [])
  | Block.toolUse tool_id name input =>
    if tool_id ≠ "" then
      let args_payload := input.getD []
      let t1 := tracker.update tool_id (some name) (some args_payload) false
      if t1.is_ready tool_id then
        (t1.mark_emitted tool_id,
         [StreamEventEmitter.tool_call name (Json.obj args_payload) tool_id])
      else (t1, [])
    else (tracker, [])
  | Block.inputJsonDelta fragment =>
    (if fragment ≠ "" then tracker.append_json_delta fragment 0 else tracker, [])
  | Block.toolCallChunk tool_id name args_text =>
    let t1 := if tool_id ≠ "" then tracker.update tool_id (some name) none false
      else tracker
    (if args_text ≠ "" then t1.append_json_delta args_text 0 else t1, [])
  | Block.unknown => (tracker, [])

/-- Sequential block processing (the `for raw_block in blocks` loop),
concatenating events in yield order. -/
def process_blocks (tracker : ToolCallTracker) :
    List Block → ToolCallTracker × List StreamEvent
  | [] => (tracker, [])
  | b :: bs =>
    let (t1, evs1) := process_block tracker b
    let (t2, evs2) := process_blocks t1 bs
    (t2, evs1 ++ evs2)

/-- Embedding of `_process_chunk_content`: a non-empty plain string
yields one text event; otherwise the typed blocks are processed. -/
def process_chunk_content (tracker : ToolCallTracker) :
    ChunkContent → ToolCallTracker × List StreamEvent
  | ChunkContent.str s =>
    (tracker, if s ≠ "" then [StreamEventEmitter.text s] else [])
  | ChunkContent.blocks bs => process_blocks tracker bs

/-- Embedding of one `_process_tool_calls` entry: register an
id-carrying entry and emit a `tool_call` event when newly ready. -/
def process_tool_call_entry (tracker : ToolCallTracker) (tc : ToolCallDict) :
    ToolCallTracker × List StreamEvent :=
  if tc.id ≠ "" then
    let args_payload := (tc.args).getD []
    let t1 := tracker.update tc.id (some tc.name) (some args_payload) false
    if t1.is_ready tc.id then
      (t1.mark_emitted tc.id,
       [StreamEventEmitter.tool_call tc.name (Json.obj args_payload) tc.id])
    else (t1, [])
  else (tracker, [])

/-- Embedding of `_process_tool_calls` (the `for tc in tool_calls` loop). -/
def process_tool_calls (tracker : ToolCallTracker) :
    List ToolCallDict → ToolCallTracker × List StreamEvent
  | [] => (tracker, [])
  | tc :: tcs =>
    let (t1, evs1) := process_tool_call_entry tracker tc
    let (t2, evs2) := process_tool_calls t1 tcs
    (t2, evs1 ++ evs2)

/-- The display cap `DisplayLimits.TOOL_RESULT_MAX` of `stream/utils.py`. -/
def TOOL_RESULT_MAX : Nat := 2000

/-- Embedding of `_process_tool_result`: finalize all tracked calls,
re-emit each as an authoritative `tool_call` update, then emit the
(capped) `tool_result` with its `is_success` verdict. -/
def process_tool_result (tracker : ToolCallTracker) (name : String)
    (raw_content : String) : ToolCallTracker × List StreamEvent :=
  let t1 := tracker.finalize_all
  let updates := t1.get_all.map (fun info =>
    StreamEventEmitter.tool_call info.name info.args info.id)
  let content :=
    if raw_content.data.length > TOOL_RESULT_MAX then
      pyTake raw_content TOOL_RESULT_MAX ++ "\n... (truncated)"
    else raw_content
  (t1, updates ++ [StreamEventEmitter.tool_result name content (is_success content)])

/-- Per-turn loop state of `stream_events`: the tracker and the
accumulated `full_response` text. -/
structure StreamState where
  tracker : ToolCallTracker
  full_response : String
deriving Repr

/-- The `content` payload of a text event, as read back by
`ev.data.get("content", "")` when accumulating `full_response`. -/
def eventTextContent (ev : StreamEvent) : String :=
  match dictGet ev.data "content" with
  | some (Json.str s) => s
  | _ => ""

/-- Embedding of one iteration of the `stream_events` ingestion loop. -/
def process_chunk (st : StreamState) : Chunk → StreamState × List StreamEvent
  | Chunk.ai content tool_calls =>
    let (t1, evs1) := process_chunk_content st.tracker content
    let full1 := evs1.foldl (fun acc ev =>
        if ev.type = "text" then acc ++ eventTextContent ev else acc)
      st.full_response
    let (t2, evs2) := process_tool_calls t1 tool_calls
    (⟨t2, full1⟩, evs1 ++ evs2)
  | Chunk.toolMsg name content =>
    let (t1, evs) := process_tool_result st.tracker name content
    (⟨t1, st.full_response⟩, evs)
  | Chunk.other => (st, [])

/-- Sequential chunk ingestion (the `for event in self.agent.stream(...)`
loop), concatenating events in yield order. -/
def run_chunks (st : StreamState) :
    List Chunk → StreamState × List StreamEvent
  | [] => (st, [])
  | c :: cs =>
    let (s1, evs1) := process_chunk st c
    let (s2, evs2) := run_chunks s1 cs
    (s2, evs1 ++ evs2)

/-- Embedding of `LangChainSkillsAgent.stream_events` for one turn.
`failure` is the upstream transport outcome: `some msg` means the
transport raised with message `msg` after delivering `chunks`.  The
result is the yielded event payloads together with the exception the
generator itself propagates (`raise` after yielding the error event);
a clean upstream ends with the `done` event and no exception. -/
def stream_events (chunks : List Chunk) (failure : Option String) :
    List (List (String × Json)) × Option String :=
  let res := run_chunks ⟨ToolCallTracker.init, ""⟩ chunks
  match failure with
  | some msg =>
    ((res.2 ++ [StreamEventEmitter.error msg]).map (fun ev => ev.data), some msg)
  | none =>
    ((res.2 ++ [StreamEventEmitter.done res.1.full_response]).map
      (fun ev => ev.data), none)

/-- Whether a yielded payload dictionary is an error event. -/
def isErrorData (d : List (String × Json)) : Bool :=
  match dictGet d "type" with
  | some (Json.str s) => s == "error"
  | _ => false

/-- Counts error events among yielded payloads. -/
def countErrorData (l : List (List (String × Json))) : Nat :=
  (l.filter isErrorData).length

/-! ## Association-list lemmas -/

lemma lookupInfo_nil (k : String) : lookupInfo [] k = none := rfl

lemma lookupInfo_cons (a : String × ToolCallInfo) (l : List (String × ToolCallInfo))
    (k : String) :
    lookupInfo (a :: l) k = if a.1 = k then some a.2 else lookupInfo l k := by
  by_cases h : a.1 = k
  · simp [lookupInfo, List.find?_cons_of_pos, h]
  · simp [lookupInfo, List.find?_cons_of_neg, h]

lemma lookupInfo_append (l1 l2 : List (String × ToolCallInfo)) (k : String) :
    lookupInfo (l1 ++ l2) k =
      match lookupInfo l1 k with
      | some v => some v
      | none => lookupInfo l2 k := by
  induction l1 with
  | nil => simp [lookupInfo_nil]
  | cons a t ih =>
    rw [List.cons_append, lookupInfo_cons, lookupInfo_cons]
    by_cases h : a.1 = k <;> simp [h, ih]

lemma lookupInfo_mapVal (l : List (String × ToolCallInfo)) (tid : String)
    (f : ToolCallInfo → ToolCallInfo) (k : String) :
    lookupInfo (mapVal l tid f) k =
      if k = tid then (lookupInfo l k).map f else lookupInfo l k := by
  induction l with
  | nil => by_cases h : k = tid <;> simp [mapVal, lookupInfo_nil, h]
  | cons a t ih =>
    simp only [mapVal] at ih ⊢
    rw [List.map_cons, lookupInfo_cons, lookupInfo_cons]
    by_cases h1 : a.1 = k
    · subst h1
      by_cases h2 : a.1 = tid
      · simp [h2]
      · simp [h2]
    · simp only [h1, if_false, ih]

lemma lookupInfo_mapAll (l : List (String × ToolCallInfo))
    (g : ToolCallInfo → ToolCallInfo) (k : String) :
    lookupInfo (l.map (fun p => (p.1, g p.2))) k = (lookupInfo l k).map g := by
  induction l with
  | nil => simp [lookupInfo_nil]
  | cons a t ih =>
    rw [List.map_cons, lookupInfo_cons, lookupInfo_cons]
    by_cases h : a.1 = k <;> simp [h, ih]

/-! ## Tracker operation lemmas -/

lemma get_update_self_new (t : ToolCallTracker) (tool_id : String)
    (name : Option String) (args : Option (List (String × Json))) (ac : Bool)
    (h : t.get tool_id = none) :
    (t.update tool_id name args ac).get tool_id =
      some (newInfo tool_id name args ac) := by
  unfold ToolCallTracker.update
  rw [h]
  show lookupInfo (t.calls ++ [(tool_id, newInfo tool_id name args ac)]) tool_id = _
  rw [lookupInfo_append]
  rw [show lookupInfo t.calls tool_id = none from h]
  simp [lookupInfo_cons]

lemma last_update_new (t : ToolCallTracker) (tool_id : String)
    (name : Option String) (args : Option (List (String × Json))) (ac : Bool)
    (h : t.get tool_id = none) :
    (t.update tool_id name args ac).last_tool_id = some tool_id := by
  unfold ToolCallTracker.update
  rw [h]
  rfl

lemma get_update_self_old (t : ToolCallTracker) (tool_id : String)
    (name : Option String) (args : Option (List (String × Json))) (ac : Bool)
    (info : ToolCallInfo) (h : t.get tool_id = some info) :
    (t.update tool_id name args ac).get tool_id =
      some (mergeUpdate name args ac info) := by
  unfold ToolCallTracker.update
  rw [h]
  show lookupInfo (mapVal t.calls tool_id (mergeUpdate name args ac)) tool_id = _
  rw [lookupInfo_mapVal]
  rw [show lookupInfo t.calls tool_id = some info from h]
  simp

lemma last_update_old (t : ToolCallTracker) (tool_id : String)
    (name : Option String) (args : Option (List (String × Json))) (ac : Bool)
    (info : ToolCallInfo) (h : t.get tool_id = some info) :
    (t.update tool_id name args ac).last_tool_id = t.last_tool_id := by
  unfold ToolCallTracker.update
  rw [h]
  rfl

lemma get_update_other (t : ToolCallTracker) (tool_id k : String)
    (name : Option String) (args : Option (List (String × Json))) (ac : Bool)
    (h : k ≠ tool_id) :
    (t.update tool_id name args ac).get k = t.get k := by
  unfold ToolCallTracker.update
  cases hg : (t.get tool_id) with
  | none =>
    show lookupInfo (t.calls ++ [(tool_id, newInfo tool_id name args ac)]) k = _
    rw [lookupInfo_append]
    cases hk : lookupInfo t.calls k with
    | none => simp [lookupInfo_cons, lookupInfo_nil, Ne.symm h, ToolCallTracker.get, hk]
    | some v => simp [ToolCallTracker.get, hk]
  | some info =>
    show lookupInfo (mapVal t.calls tool_id (mergeUpdate name args ac)) k = _
    rw [lookupInfo_mapVal]
    simp [h, ToolCallTracker.get]

lemma append_delta_of_last_none (t : ToolCallTracker) (s : String) (i : Nat)
    (h : t.last_tool_id = none) : t.append_json_delta s i = t := by
  unfold ToolCallTracker.append_json_delta
  rw [h]

lemma append_delta_eq_of_hit (t : ToolCallTracker) (tid : String) (s : String)
    (i : Nat) (hl : t.last_tool_id = some tid)
    (hc : (tid ≠ "" && (t.get tid).isSome) = true) :
    t.append_json_delta s i =
      { t with calls := mapVal t.calls tid (fun info =>
          { info with json_buffer := info.json_buffer ++ s }) } := by
  unfold ToolCallTracker.append_json_delta
  simp only [hl]
  rw [if_pos hc]

lemma append_delta_eq_of_miss (t : ToolCallTracker) (tid : String) (s : String)
    (i : Nat) (hl : t.last_tool_id = some tid)
    (hc : ¬((tid ≠ "" && (t.get tid).isSome) = true)) :
    t.append_json_delta s i = t := by
  unfold ToolCallTracker.append_json_delta
  simp only [hl]
  rw [if_neg hc]

lemma get_append_delta_self (t : ToolCallTracker) (tid : String) (s : String)
    (i : Nat) (info : ToolCallInfo) (hl : t.last_tool_id = some tid)
    (hne : tid ≠ "") (hg : t.get tid = some info) :
    (t.append_json_delta s i).get tid =
      some { info with json_buffer := info.json_buffer ++ s } := by
  rw [append_delta_eq_of_hit t tid s i hl (by simp [hne, hg])]
  show lookupInfo (mapVal t.calls tid
    (fun info => { info with json_buffer := info.json_buffer ++ s })) tid = _
  rw [lookupInfo_mapVal]
  rw [show lookupInfo t.calls tid = some info from hg]
  simp

lemma get_append_delta_other (t : ToolCallTracker) (k : String) (s : String)
    (i : Nat) (h : ∀ tid, t.last_tool_id = some tid → k ≠ tid) :
    (t.append_json_delta s i).get k = t.get k := by
  cases hl : t.last_tool_id with
  | none => rw [append_delta_of_last_none t s i hl]
  | some tid =>
    by_cases hc : (tid ≠ "" && (t.get tid).isSome) = true
    · rw [append_delta_eq_of_hit t tid s i hl hc]
      show lookupInfo (mapVal t.calls tid
        (fun info => { info with json_buffer := info.json_buffer ++ s })) k = _
      rw [lookupInfo_mapVal]
      simp [h tid hl, ToolCallTracker.get]
    · rw [append_delta_eq_of_miss t tid s i hl hc]

lemma last_append_delta (t : ToolCallTracker) (s : String) (i : Nat) :
    (t.append_json_delta s i).last_tool_id = t.last_tool_id := by
  cases hl : t.last_tool_id with
  | none => rw [append_delta_of_last_none t s i hl, hl]
  | some tid =>
    by_cases hc : (tid ≠ "" && (t.get tid).isSome) = true
    · rw [append_delta_eq_of_hit t tid s i hl hc, hl]
    · rw [append_delta_eq_of_miss t tid s i hl hc, hl]

lemma get_finalize_all (t : ToolCallTracker) (k : String) :
    (t.finalize_all).get k = (t.get k).map finalizeInfo := by
  unfold ToolCallTracker.finalize_all
  show lookupInfo (t.calls.map _) k = _
  rw [lookupInfo_mapAll]
  rfl

lemma get_mark_emitted_self (t : ToolCallTracker) (tool_id : String) :
    (t.mark_emitted tool_id).get tool_id =
      (t.get tool_id).map (fun info => { info with emitted := true }) := by
  show lookupInfo (mapVal t.calls tool_id (fun info => { info with emitted := true }))
    tool_id = _
  rw [lookupInfo_mapVal]
  simp [ToolCallTracker.get]

lemma get_mark_emitted_other (t : ToolCallTracker) (tool_id k : String)
    (h : k ≠ tool_id) : (t.mark_emitted tool_id).get k = t.get k := by
  show lookupInfo (mapVal t.calls tool_id (fun info => { info with emitted := true }))
    k = _
  rw [lookupInfo_mapVal]
  simp [h, ToolCallTracker.get]

lemma get_clear (t : ToolCallTracker) (k : String) : (t.clear).get k = none := rfl

/-! ## Record-merge field lemmas -/

lemma mergeName_fields (name : Option String) (info : ToolCallInfo) :
    (mergeName name info).emitted = info.emitted ∧
    (mergeName name info).args_complete = info.args_complete := by
  cases name with
  | none => exact ⟨rfl, rfl⟩
  | some s =>
    unfold mergeName
    by_cases h : s ≠ "" <;> simp [h]

lemma mergeArgs_fields (args : Option (List (String × Json))) (info : ToolCallInfo) :
    (mergeArgs args info).emitted = info.emitted ∧
    (mergeArgs args info).args_complete = info.args_complete := by
  cases args with
  | none => exact ⟨rfl, rfl⟩
  | some l =>
    unfold mergeArgs
    by_cases h : l.isEmpty <;> simp [h]

lemma mergeAC_fields (ac : Bool) (info : ToolCallInfo) :
    (mergeAC ac info).emitted = info.emitted ∧
    (mergeAC ac info).args_complete = (ac || info.args_complete) := by
  cases ac <;> simp [mergeAC]

lemma mergeUpdate_emitted (name : Option String)
    (args : Option (List (String × Json))) (ac : Bool) (info : ToolCallInfo) :
    (mergeUpdate name args ac info).emitted = info.emitted := by
  unfold mergeUpdate
  rw [(mergeAC_fields ac _).1, (mergeArgs_fields args _).1, (mergeName_fields name _).1]

lemma mergeUpdate_args_complete (name : Option String)
    (args : Option (List (String × Json))) (ac : Bool) (info : ToolCallInfo) :
    (mergeUpdate name args ac info).args_complete = (ac || info.args_complete) := by
  unfold mergeUpdate
  rw [(mergeAC_fields ac _).2, (mergeArgs_fields args _).2, (mergeName_fields name _).2]

lemma get_append_delta_shape (t : ToolCallTracker) (k : String) (s : String)
    (i : Nat) :
    (t.append_json_delta s i).get k = t.get k ∨
    (t.append_json_delta s i).get k =
      (t.get k).map (fun info => { info with json_buffer := info.json_buffer ++ s }) := by
  cases hl : t.last_tool_id with
  | none => exact Or.inl (by rw [append_delta_of_last_none t s i hl])
  | some tid =>
    by_cases hc : (tid ≠ "" && (t.get tid).isSome) = true
    · by_cases hk : k = tid
      · subst hk
        refine Or.inr ?_
        rw [append_delta_eq_of_hit t k s i hl hc]
        show lookupInfo (mapVal t.calls k
          (fun info => { info with json_buffer := info.json_buffer ++ s })) k = _
        rw [lookupInfo_mapVal]
        simp [ToolCallTracker.get]
      · refine Or.inl ?_
        rw [append_delta_eq_of_hit t tid s i hl hc]
        show lookupInfo (mapVal t.calls tid
          (fun info => { info with json_buffer := info.json_buffer ++ s })) k = _
        rw [lookupInfo_mapVal]
        simp [hk, ToolCallTracker.get]
    · exact Or.inl (by rw [append_delta_eq_of_miss t tid s i hl hc])

lemma finalizeInfo_fields (info : ToolCallInfo) :
    (finalizeInfo info).args_complete = true ∧
    (finalizeInfo info).json_buffer = "" ∧
    (finalizeInfo info).args =
      (if info.json_buffer = "" then info.args
       else (parseJson info.json_buffer).getD info.args) ∧
    (finalizeInfo info).name = info.name ∧
    (finalizeInfo info).id = info.id ∧
    (finalizeInfo info).emitted = info.emitted := by
  unfold finalizeInfo
  by_cases h : info.json_buffer = ""
  · simp [h]
  · simp only [h, if_false, ne_eq, not_false_iff, if_true]
    cases hp : parseJson info.json_buffer <;> simp [h, hp]

/-! ## Trace-level preservation lemmas -/

lemma runOpsFrom_nil (t : ToolCallTracker) : runOpsFrom t [] = t := rfl

lemma runOpsFrom_cons (t : ToolCallTracker) (op : TrackerOp) (ops : List TrackerOp) :
    runOpsFrom t (op :: ops) = runOpsFrom (applyOp t op) ops := rfl

lemma get_none_preserved (t : ToolCallTracker) (k : String) (op : TrackerOp)
    (hop : opUpdatesId op k = false) (h : t.get k = none) :
    (applyOp t op).get k = none := by
  cases op with
  | update tid nm a ac =>
    have hne : k ≠ tid := by
      intro he
      subst he
      simp [opUpdatesId] at hop
    show (t.update tid nm a ac).get k = none
    rw [get_update_other t tid k nm a ac hne]
    exact h
  | appendDelta s =>
    show (t.append_json_delta s 0).get k = none
    rcases get_append_delta_shape t k s 0 with hs | hs
    · rw [hs, h]
    · rw [hs, h]
      rfl
  | finalizeAll =>
    show (t.finalize_all).get k = none
    rw [get_finalize_all, h]
    rfl
  | markEmitted tid =>
    show (t.mark_emitted tid).get k = none
    by_cases hk : k = tid
    · subst hk
      rw [get_mark_emitted_self, h]
      rfl
    · rw [get_mark_emitted_other t tid k hk]
      exact h
  | clear => exact get_clear t k

lemma emitted_true_preserved (t : ToolCallTracker) (k : String) (op : TrackerOp)
    (hop : op ≠ TrackerOp.clear) (info : ToolCallInfo)
    (h : t.get k = some info) (he : info.emitted = true) :
    ∃ info', (applyOp t op).get k = some info' ∧ info'.emitted = true := by
  cases op with
  | update tid nm a ac =>
    by_cases hk : k = tid
    · subst hk
      refine ⟨mergeUpdate nm a ac info, ?_, ?_⟩
      · exact get_update_self_old t k nm a ac info h
      · rw [mergeUpdate_emitted]
        exact he
    · refine ⟨info, ?_, he⟩
      show (t.update tid nm a ac).get k = some info
      rw [get_update_other t tid k nm a ac hk]
      exact h
  | appendDelta s =>
    rcases get_append_delta_shape t k s 0 with hs | hs
    · refine ⟨info, ?_, he⟩
      show (t.append_json_delta s 0).get k = some info
      rw [hs]
      exact h
    · refine ⟨{ info with json_buffer := info.json_buffer ++ s }, ?_, he⟩
      show (t.append_json_delta s 0).get k = _
      rw [hs, h]
      rfl
  | finalizeAll =>
    refine ⟨finalizeInfo info, ?_, ?_⟩
    · show (t.finalize_all).get k = _
      rw [get_finalize_all, h]
      rfl
    · rw [(finalizeInfo_fields info).2.2.2.2.2]
      exact he
  | markEmitted tid =>
    by_cases hk : k = tid
    · subst hk
      refine ⟨{ info with emitted := true }, ?_, rfl⟩
      show (t.mark_emitted k).get k = _
      rw [get_mark_emitted_self, h]
      rfl
    · refine ⟨info, ?_, he⟩
      show (t.mark_emitted tid).get k = some info
      rw [get_mark_emitted_other t tid k hk]
      exact h
  | clear => exact absurd rfl hop

lemma args_complete_preserved_by_update (t : ToolCallTracker) (k : String)
    (op : TrackerOp) (hop : isUpdateOp op = true) (info : ToolCallInfo)
    (h : t.get k = some info) (ha : info.args_complete = true) :
    ∃ info', (applyOp t op).get k = some info' ∧ info'.args_complete = true := by
  cases op with
  | update tid nm a ac =>
    by_cases hk : k = tid
    · subst hk
      refine ⟨mergeUpdate nm a ac info, ?_, ?_⟩
      · exact get_update_self_old t k nm a ac info h
      · rw [mergeUpdate_args_complete, ha, Bool.or_true]
    · refine ⟨info, ?_, ha⟩
      show (t.update tid nm a ac).get k = some info
      rw [get_update_other t tid k nm a ac hk]
      exact h
  | appendDelta s => simp [isUpdateOp] at hop
  | finalizeAll => simp [isUpdateOp] at hop
  | markEmitted tid => simp [isUpdateOp] at hop
  | clear => simp [isUpdateOp] at hop

lemma last_preserved_nonupdate (t : ToolCallTracker) (op : TrackerOp)
    (hop : isUpdateOp op = false) :
    (applyOp t op).last_tool_id = t.last_tool_id := by
  cases op with
  | update tid nm a ac => simp [isUpdateOp] at hop
  | appendDelta s => exact last_append_delta t s 0
  | finalizeAll => rfl
  | markEmitted tid => rfl
  | clear => rfl

lemma get_none_run (ops : List TrackerOp) (k : String) :
    ∀ t : ToolCallTracker, t.get k = none →
      (∀ op ∈ ops, opUpdatesId op k = false) → (runOpsFrom t ops).get k = none := by
  induction ops with
  | nil => intro t h _; exact h
  | cons op ops ih =>
    intro t h hops
    rw [runOpsFrom_cons]
    exact ih (applyOp t op) (get_none_preserved t k op (hops op (by simp)) h)
      (fun o ho => hops o (by simp [ho]))

lemma emitted_true_run (ops : List TrackerOp) (k : String) :
    ∀ (t : ToolCallTracker) (info : ToolCallInfo), t.get k = some info →
      info.emitted = true → (∀ op ∈ ops, op ≠ TrackerOp.clear) →
      ∃ info', (runOpsFrom t ops).get k = some info' ∧ info'.emitted = true := by
  induction ops with
  | nil => intro t info h he _; exact ⟨info, h, he⟩
  | cons op ops ih =>
    intro t info h he hops
    obtain ⟨info1, h1, he1⟩ :=
      emitted_true_preserved t k op (hops op (by simp)) info h he
    rw [runOpsFrom_cons]
    exact ih (applyOp t op) info1 h1 he1 (fun o ho => hops o (by simp [ho]))

lemma args_complete_run (ops : List TrackerOp) (k : String) :
    ∀ (t : ToolCallTracker) (info : ToolCallInfo), t.get k = some info →
      info.args_complete = true → (∀ op ∈ ops, isUpdateOp op = true) →
      ∃ info', (runOpsFrom t ops).get k = some info' ∧ info'.args_complete = true := by
  induction ops with
  | nil => intro t info h ha _; exact ⟨info, h, ha⟩
  | cons op ops ih =>
    intro t info h ha hops
    obtain ⟨info1, h1, ha1⟩ :=
      args_complete_preserved_by_update t k op (hops op (by simp)) info h ha
    rw [runOpsFrom_cons]
    exact ih (applyOp t op) info1 h1 ha1 (fun o ho => hops o (by simp [ho]))

lemma is_ready_iff (t : ToolCallTracker) (tool_id : String) :
    t.is_ready tool_id = true ↔
      ∃ info, t.get tool_id = some info ∧ info.name ≠ "" ∧ info.emitted = false := by
  cases hg : t.get tool_id with
  | none =>
    simp only [ToolCallTracker.is_ready, hg]
    simp
  | some info =>
    simp only [ToolCallTracker.is_ready, hg]
    constructor
    · intro hb
      rcases Bool.and_eq_true_iff.mp hb with ⟨h1, h2⟩
      exact ⟨info, rfl, by simpa using h1, by simpa using h2⟩
    · rintro ⟨info', hi, h1, h2⟩
      cases Option.some.inj hi
      simp [h1, h2]

/-! ## Claim theorems -/

/-- C2: `finalize_all` parses every non-empty `jsonBuffer` (replacing
`args` only on parse success, keeping them on failure), clears the buffer
in both cases, and makes `argsComplete` true for every record; and the
two concrete scenarios: fragment concatenation yields
`args == \x7b"command": "echo hi"\x7d` with `argsComplete` true, and a malformed
fragment after `args=\x7b"k":"v"\x7d` leaves those args untouched. -/
theorem finalize_all_spec :
    (∀ (t : ToolCallTracker) (tool_id : String) (info : ToolCallInfo),
      t.get tool_id = some info →
      ∃ info', (t.finalize_all).get tool_id = some info' ∧
        info'.args_complete = true ∧
        info'.json_buffer = "" ∧
        info'.args =
          (if info.json_buffer = "" then info.args
           else (parseJson info.json_buffer).getD info.args) ∧
        info'.name = info.name ∧ info'.id = info.id ∧
        info'.emitted = info.emitted)
  ∧ ((runOps [TrackerOp.update "a" (some "bash") none false,
        TrackerOp.appendDelta "\x7b\"command\": \"ec",
        TrackerOp.appendDelta "ho hi\"\x7d",
        TrackerOp.finalizeAll]).get "a").map
      (fun i => (i.args, i.args_complete)) =
      some (Json.obj [("command", Json.str "echo hi")], true)
  ∧ ((runOps [TrackerOp.update "a" (some "bash") (some [("k", Json.str "v")]) false,
        TrackerOp.appendDelta "not json",
        TrackerOp.finalizeAll]).get "a").map
      (fun i => (i.args, i.args_complete)) =
      some (Json.obj [("k", Json.str "v")], true) := by
  refine ⟨?_, rfl, rfl⟩
  intro t tool_id info h
  refine ⟨finalizeInfo info, ?_, ?_⟩
  · rw [get_finalize_all, h]
    rfl
  · exact finalizeInfo_fields info

/-- C2 witness: the general finalize property applied to a tracker
holding one record with a buffered fragment. -/
theorem finalize_all_spec_witness :
    ∃ info',
      ((runOps [TrackerOp.update "a" (some "bash") none false,
          TrackerOp.appendDelta "\x7b\"k\":1\x7d"]).finalize_all).get "a" = some info' ∧
      info'.args_complete = true ∧
      info'.json_buffer = "" ∧
      info'.args =
        (if ("\x7b\"k\":1\x7d" : String) = "" then Json.obj []
         else (parseJson "\x7b\"k\":1\x7d").getD (Json.obj [])) ∧
      info'.name = "bash" ∧ info'.id = "a" ∧ info'.emitted = false :=
  finalize_all_spec.1
    (runOps [TrackerOp.update "a" (some "bash") none false,
      TrackerOp.appendDelta "\x7b\"k\":1\x7d"])
    "a"
    { id := "a", name := "bash", args := Json.obj [], emitted := false,
      args_complete := false, json_buffer := "\x7b\"k\":1\x7d" }
    rfl

/-- C3 counterexample: after `update("a")`, `update("b")`, a further
`update("a", name="grep")` (so "a" is the most recently touched and most
recently seen id) and then an undelimited fragment, the fragment lands in
the buffer of "b" — the most recently created record — not "a", refuting
the claim that it attaches to the most-recently-touched id. -/
theorem append_fragment_target_cex :
    ((runOps [TrackerOp.update "a" (some "bash") none false,
        TrackerOp.update "b" (some "bash") none false,
        TrackerOp.update "a" (some "grep") none false,
        TrackerOp.appendDelta "x"]).get "a").map (fun i => i.json_buffer) =
      some ""
  ∧ ((runOps [TrackerOp.update "a" (some "bash") none false,
        TrackerOp.update "b" (some "bash") none false,
        TrackerOp.update "a" (some "grep") none false,
        TrackerOp.appendDelta "x"]).get "b").map (fun i => i.json_buffer) =
      some "x" := ⟨rfl, rfl⟩

/-- C3 (amended): `appendFragment` appends to the `jsonBuffer` of the
record keyed by the most recently *registered* id — the last id whose
`update` created its record; an `update` of an already-tracked id does
not retarget fragments.  With no registered id the fragment is silently
dropped as a no-op. -/
theorem append_fragment_target :
    (∀ ops : List TrackerOp, (∀ op ∈ ops, isUpdateOp op = false) →
      (runOps ops).last_tool_id = none)
  ∧ (∀ (t : ToolCallTracker) (s : String), t.last_tool_id = none →
      t.append_json_delta s 0 = t)
  ∧ (∀ (t : ToolCallTracker) (tool_id : String) (nm : Option String)
        (args : Option (List (String × Json))) (ac : Bool),
      t.get tool_id = none →
      (t.update tool_id nm args ac).last_tool_id = some tool_id)
  ∧ (∀ (t : ToolCallTracker) (tool_id : String) (nm : Option String)
        (args : Option (List (String × Json))) (ac : Bool) (info : ToolCallInfo),
      t.get tool_id = some info →
      (t.update tool_id nm args ac).last_tool_id = t.last_tool_id)
  ∧ (∀ (t : ToolCallTracker) (tid s : String) (info : ToolCallInfo),
      t.last_tool_id = some tid → tid ≠ "" → t.get tid = some info →
      (t.append_json_delta s 0).get tid =
        some { info with json_buffer := info.json_buffer ++ s } ∧
      (∀ k, k ≠ tid → (t.append_json_delta s 0).get k = t.get k) ∧
      (t.append_json_delta s 0).last_tool_id = t.last_tool_id) := by
  refine ⟨?_, ?_, ?_, ?_, ?_⟩
  · intro ops hops
    have hrun : ∀ (ops2 : List TrackerOp) (t : ToolCallTracker),
        (∀ op ∈ ops2, isUpdateOp op = false) → t.last_tool_id = none →
        (runOpsFrom t ops2).last_tool_id = none := by
      intro ops2
      induction ops2 with
      | nil => intro t _ h; exact h
      | cons op ops2 ih =>
        intro t hops2 h
        rw [runOpsFrom_cons]
        exact ih (applyOp t op) (fun o ho => hops2 o (by simp [ho]))
          (by rw [last_preserved_nonupdate t op (hops2 op (by simp))]; exact h)
    exact hrun ops ToolCallTracker.init hops rfl
  · intro t s h
    exact append_delta_of_last_none t s 0 h
  · intro t tool_id nm args ac h
    exact last_update_new t tool_id nm args ac h
  · intro t tool_id nm args ac info h
    exact last_update_old t tool_id nm args ac info h
  · intro t tid s info hl hne hg
    refine ⟨get_append_delta_self t tid s 0 info hl hne hg, ?_,
      last_append_delta t s 0⟩
    intro k hk
    refine get_append_delta_other t k s 0 ?_
    intro tid' hl'
    rw [hl] at hl'
    cases Option.some.inj hl'
    exact hk

/-- C3 witness: the registration/append behavior applied to a tracker
with one registered id. -/
theorem append_fragment_target_witness :
    ((runOps [TrackerOp.update "a" (some "bash") none false]).append_json_delta
      "xy" 0).get "a" =
      some { id := "a", name := "bash", args := Json.obj [], emitted := false,
             args_complete := false, json_buffer := "xy" } :=
  (append_fragment_target.2.2.2.2
    (runOps [TrackerOp.update "a" (some "bash") none false]) "a" "xy"
    { id := "a", name := "bash", args := Json.obj [], emitted := false,
      args_complete := false, json_buffer := "" }
    rfl (by decide) rfl).1

/-- C4: `isReady(id)` holds iff the record exists with a non-empty name
and was not emitted; it is false for every id never updated, becomes true
immediately after an `update` with a non-empty name regardless of args,
and after `markEmitted(id)` stays false under any further non-`clear`
calls. -/
theorem is_ready_spec :
    (∀ (t : ToolCallTracker) (tool_id : String),
      t.is_ready tool_id = true ↔
        ∃ info, t.get tool_id = some info ∧ info.name ≠ "" ∧ info.emitted = false)
  ∧ (∀ (ops : List TrackerOp) (tool_id : String),
      (∀ op ∈ ops, opUpdatesId op tool_id = false) →
      (runOps ops).is_ready tool_id = false)
  ∧ (∀ (t : ToolCallTracker) (tool_id nm : String)
        (args : Option (List (String × Json))) (ac : Bool),
      t.get tool_id = none → nm ≠ "" →
      (t.update tool_id (some nm) args ac).is_ready tool_id = true)
  ∧ (∀ (t : ToolCallTracker) (tool_id : String) (info : ToolCallInfo),
      t.get tool_id = some info →
      ∀ ops : List TrackerOp, (∀ op ∈ ops, op ≠ TrackerOp.clear) →
      (runOpsFrom (t.mark_emitted tool_id) ops).is_ready tool_id = false) := by
  refine ⟨is_ready_iff, ?_, ?_, ?_⟩
  · intro ops tool_id hops
    have hg := get_none_run ops tool_id ToolCallTracker.init rfl hops
    simp [ToolCallTracker.is_ready, runOps, hg]
  · intro t tool_id nm args ac h hnm
    rw [is_ready_iff]
    exact ⟨newInfo tool_id (some nm) args ac,
      get_update_self_new t tool_id (some nm) args ac h,
      by simpa [newInfo] using hnm, rfl⟩
  · intro t tool_id info h ops hops
    have h1 : (t.mark_emitted tool_id).get tool_id =
        some { info with emitted := true } := by
      rw [get_mark_emitted_self, h]
      rfl
    obtain ⟨info', hg, he⟩ := emitted_true_run ops tool_id (t.mark_emitted tool_id)
      { info with emitted := true } h1 rfl hops
    simp [ToolCallTracker.is_ready, hg, he]

/-- C4 witness: a fresh id becomes ready after a single named update
without args. -/
theorem is_ready_spec_witness :
    (ToolCallTracker.init.update "w" (some "bash") none false).is_ready "w" = true :=
  is_ready_spec.2.2.1 ToolCallTracker.init "w" "bash" none false rfl (by decide)

/-- C5: `argsComplete` is monotonic — once true for a tracked record, no
sequence of further `update` calls (in particular ones passing
`argsComplete=false`) resets it. -/
theorem args_complete_monotonic :
    ∀ (t : ToolCallTracker) (tool_id : String) (info : ToolCallInfo),
      t.get tool_id = some info → info.args_complete = true →
      ∀ ops : List TrackerOp, (∀ op ∈ ops, isUpdateOp op = true) →
      ∃ info', (runOpsFrom t ops).get tool_id = some info' ∧
        info'.args_complete = true :=
  fun t tool_id info h ha ops hops => args_complete_run ops tool_id t info h ha hops

/-- C5 witness: monotonicity applied after an `update` that set
`argsComplete` true, followed by an `update(..., argsComplete=false)`. -/
theorem args_complete_monotonic_witness :
    ∃ info', ((runOpsFrom (runOps [TrackerOp.update "a" (some "bash") none true])
        [TrackerOp.update "a" (some "grep") none false]).get "a") = some info' ∧
      info'.args_complete = true :=
  args_complete_monotonic (runOps [TrackerOp.update "a" (some "bash") none true]) "a"
    { id := "a", name := "bash", args := Json.obj [], emitted := false,
      args_complete := true, json_buffer := "" } rfl rfl
    [TrackerOp.update "a" (some "grep") none false] (by decide)

/-- C1 counterexample: for `"[OK]\n\x7b\"a\":1\x7d"` the body obtained by
stripping only the marker line is valid JSON (so the claim predicts
Json), but `detect_type` consumes the marker line *and* the following
line — here the body is empty — and classifies Success. -/
theorem detect_type_ok_body_cex :
    detect_type "[OK]\n\x7b\"a\":1\x7d" = ContentType.success
  ∧ is_json (extract_body_spec "[OK]\n\x7b\"a\":1\x7d") = true
  ∧ extract_body "[OK]\n\x7b\"a\":1\x7d" = "" := ⟨rfl, rfl, rfl⟩

/-- C1 (amended): for every tool-result string whose trimmed content
starts with "[OK]", classification re-checks the body after the *second*
newline of the trimmed content (the marker line and the separator line
after it are both consumed; with fewer than two newlines the body is
empty): Json when that body passes the JSON-like check, Success
otherwise — never Error, even when the body contains an error-pattern
substring. -/
theorem detect_type_ok_body :
    ∀ content : String, pyStartsWith (pyStrip content) successMark = true →
      detect_type content =
        (if is_json (extract_body (pyStrip content)) then ContentType.json
         else ContentType.success)
      ∧ detect_type content ≠ ContentType.error := by
  intro content h
  have he : detect_type content =
      (if is_json (extract_body (pyStrip content)) then ContentType.json
       else ContentType.success) := by
    unfold detect_type
    simp only [h, if_true]
  refine ⟨he, ?_⟩
  rw [he]
  by_cases hj : is_json (extract_body (pyStrip content)) = true <;> simp [hj]

/-- C1 witness: an `[OK]`-prefixed result whose body carries an
error-pattern substring still avoids the Error classification. -/
theorem detect_type_ok_body_witness :
    detect_type "[OK]\n\nError: boom" ≠ ContentType.error :=
  (detect_type_ok_body "[OK]\n\nError: boom" (by decide)).2

/-- C6 counterexample: `"\n[FAILED] x"` does not start with either
marker and contains no error-pattern substring, so the claim predicts
true, but `is_success` strips whitespace first and returns false. -/
theorem is_success_trim_cex :
    is_success "\n[FAILED] x" = false
  ∧ pyStartsWith "\n[FAILED] x" successMark = false
  ∧ pyStartsWith "\n[FAILED] x" failureMark = false
  ∧ is_error "\n[FAILED] x" = false := ⟨rfl, rfl, rfl, rfl⟩

/-- C6 (amended): `is_success` first trims whitespace; it returns true
iff the trimmed content starts with "[OK]", or starts with neither marker
and contains none of the three error-pattern substrings.  The spec's
examples evaluate as stated. -/
theorem is_success_spec :
    (∀ content : String,
      is_success content = true ↔
        (pyStartsWith (pyStrip content) successMark = true ∨
          (pyStartsWith (pyStrip content) failureMark = false ∧
           pyContains (pyStrip content) "Traceback (most recent call last)" = false ∧
           pyContains (pyStrip content) "Exception:" = false ∧
           pyContains (pyStrip content) "Error:" = false)))
  ∧ is_success "[OK]\nok" = true
  ∧ is_success "[FAILED] x" = false
  ∧ is_success "Traceback (most recent call last):\nsnip" = false
  ∧ is_success "" = true := by
  refine ⟨?_, rfl, rfl, rfl, rfl⟩
  intro content
  unfold is_success
  cases h1 : pyStartsWith (pyStrip content) successMark
  · cases h2 : pyStartsWith (pyStrip content) failureMark
    · simp [errorPatterns, h1, h2]
    · simp [errorPatterns, h1, h2]
  · simp [h1]

/-- C6 witness: the characterization applied to a plain success text. -/
theorem is_success_spec_witness :
    pyStartsWith (pyStrip "all fine") successMark = true ∨
      (pyStartsWith (pyStrip "all fine") failureMark = false ∧
       pyContains (pyStrip "all fine") "Traceback (most recent call last)" = false ∧
       pyContains (pyStrip "all fine") "Exception:" = false ∧
       pyContains (pyStrip "all fine") "Error:" = false) :=
  (is_success_spec.1 "all fine").mp (by decide)

/-- C7: the five classification examples evaluate as the spec states,
and every content that trims to the empty string classifies as Text. -/
theorem classify_examples :
    detect_type "[OK]\n\n\x7b\"a\":1\x7d" = ContentType.json
  ∧ detect_type "[FAILED] exit 1" = ContentType.error
  ∧ detect_type "# Title\nbody" = ContentType.markdown
  ∧ detect_type "plain text" = ContentType.text
  ∧ detect_type "" = ContentType.text
  ∧ (∀ content : String, pyStrip content = "" →
      detect_type content = ContentType.text) := by
  refine ⟨rfl, rfl, rfl, rfl, rfl, ?_⟩
  intro content h
  unfold detect_type
  simp only [h]
  decide

/-- C7 witness: a whitespace-only content classifies as Text. -/
theorem classify_examples_witness :
    detect_type "  \t\n " = ContentType.text :=
  classify_examples.2.2.2.2.2 "  \t\n " (by decide)

/-- C8: the SSE bridge serializes each event as exactly one frame
`event: <name>\ndata: <json>\n\n` where the name equals the event type
except that `error` is renamed `agent_error` at the transport label,
while the error event's JSON payload still carries type "error". -/
theorem sse_frame_spec :
    (∀ (event_type : String) (payload : List (String × Json)),
      event_type ≠ "error" →
      to_sse_frame event_type payload =
        "event: " ++ event_type ++ "\ndata: " ++ jsonDumps (Json.obj payload) ++
          "\n\n")
  ∧ (∀ payload : List (String × Json),
      to_sse_frame "error" payload =
        "event: agent_error" ++ "\ndata: " ++ jsonDumps (Json.obj payload) ++
          "\n\n")
  ∧ (∀ msg : String,
      dictGet (StreamEventEmitter.error msg).data "type" =
        some (Json.str "error")) := by
  refine ⟨?_, fun payload => rfl, fun msg => rfl⟩
  intro event_type payload h
  unfold to_sse_frame
  simp [h]

/-- C8 witness: a non-error event keeps its own transport label. -/
theorem sse_frame_spec_witness :
    to_sse_frame "text" [("type", Json.str "text")] =
      "event: text\ndata: \x7b\"type\": \"text\"\x7d\n\n" := by
  rw [sse_frame_spec.1 "text" [("type", Json.str "text")] (by decide)]
  simp [jsonDumps, jsonDumpsFields]

/-- C10: every event built by the six `StreamEventEmitter` constructors
carries a payload whose "type" entry equals the event's own type tag. -/
theorem emitter_type_tag_spec :
    (∀ (content : String) (thinking_id : Int),
      dictGet (StreamEventEmitter.thinking content thinking_id).data "type" =
        some (Json.str (StreamEventEmitter.thinking content thinking_id).type))
  ∧ (∀ content : String,
      dictGet (StreamEventEmitter.text content).data "type" =
        some (Json.str (StreamEventEmitter.text content).type))
  ∧ (∀ (name : String) (args : Json) (tool_id : String),
      dictGet (StreamEventEmitter.tool_call name args tool_id).data "type" =
        some (Json.str (StreamEventEmitter.tool_call name args tool_id).type))
  ∧ (∀ (name content : String) (success : Bool),
      dictGet (StreamEventEmitter.tool_result name content success).data "type" =
        some (Json.str (StreamEventEmitter.tool_result name content success).type))
  ∧ (∀ response : String,
      dictGet (StreamEventEmitter.done response).data "type" =
        some (Json.str (StreamEventEmitter.done response).type))
  ∧ (∀ message : String,
      dictGet (StreamEventEmitter.error message).data "type" =
        some (Json.str (StreamEventEmitter.error message).type)) :=
  ⟨fun _ _ => rfl, fun _ => rfl, fun _ _ _ => rfl, fun _ _ _ => rfl,
   fun _ => rfl, fun _ => rfl⟩

/-! ## Non-error lemmas for the ingestion loop -/

lemma process_block_nonerror (t : ToolCallTracker) (b : Block) :
    ∀ ev ∈ (process_block t b).2, isErrorData ev.data = false := by
  intro ev hev
  cases b with
  | thinking txt =>
    dsimp only [process_block] at hev
    split at hev
    · rw [List.mem_singleton] at hev
      subst hev
      rfl
    · exact absurd hev (List.not_mem_nil ev)
  | text txt =>
    dsimp only [process_block] at hev
    split at hev
    · rw [List.mem_singleton] at hev
      subst hev
      rfl
    · exact absurd hev (List.not_mem_nil ev)
  | toolUse tool_id name input =>
    dsimp only [process_block] at hev
    split at hev
    · split at hev
      · rw [List.mem_singleton] at hev
        subst hev
        rfl
      · exact absurd hev (List.not_mem_nil ev)
    · exact absurd hev (List.not_mem_nil ev)
  | inputJsonDelta f => exact absurd hev (List.not_mem_nil ev)
  | toolCallChunk tool_id name args_text => exact absurd hev (List.not_mem_nil ev)
  | unknown => exact absurd hev (List.not_mem_nil ev)

lemma process_blocks_nonerror (bs : List Block) :
    ∀ t : ToolCallTracker, ∀ ev ∈ (process_blocks t bs).2,
      isErrorData ev.data = false := by
  induction bs with
  | nil => intro t ev hev; exact absurd hev (List.not_mem_nil ev)
  | cons b bs ih =>
    intro t ev hev
    dsimp only [process_blocks] at hev
    rw [List.mem_append] at hev
    rcases hev with hev | hev
    · exact process_block_nonerror t b ev hev
    · exact ih (process_block t b).1 ev hev

lemma process_chunk_content_nonerror (t : ToolCallTracker) (c : ChunkContent) :
    ∀ ev ∈ (process_chunk_content t c).2, isErrorData ev.data = false := by
  intro ev hev
  cases c with
  | str s =>
    dsimp only [process_chunk_content] at hev
    split at hev
    · rw [List.mem_singleton] at hev
      subst hev
      rfl
    · exact absurd hev (List.not_mem_nil ev)
  | blocks bs => exact process_blocks_nonerror bs t ev hev

lemma process_tool_call_entry_nonerror (t : ToolCallTracker) (tc : ToolCallDict) :
    ∀ ev ∈ (process_tool_call_entry t tc).2, isErrorData ev.data = false := by
  intro ev hev
  dsimp only [process_tool_call_entry] at hev
  split at hev
  · split at hev
    · rw [List.mem_singleton] at hev
      subst hev
      rfl
    · exact absurd hev (List.not_mem_nil ev)
  · exact absurd hev (List.not_mem_nil ev)

lemma process_tool_calls_nonerror (tcs : List ToolCallDict) :
    ∀ t : ToolCallTracker, ∀ ev ∈ (process_tool_calls t tcs).2,
      isErrorData ev.data = false := by
  induction tcs with
  | nil => intro t ev hev; exact absurd hev (List.not_mem_nil ev)
  | cons tc tcs ih =>
    intro t ev hev
    dsimp only [process_tool_calls] at hev
    rw [List.mem_append] at hev
    rcases hev with hev | hev
    · exact process_tool_call_entry_nonerror t tc ev hev
    · exact ih (process_tool_call_entry t tc).1 ev hev

lemma process_tool_result_nonerror (t : ToolCallTracker) (name raw : String) :
    ∀ ev ∈ (process_tool_result t name raw).2, isErrorData ev.data = false := by
  intro ev hev
  dsimp only [process_tool_result] at hev
  rw [List.mem_append] at hev
  rcases hev with hev | hev
  · obtain ⟨info, _, rfl⟩ := List.mem_map.mp hev
    rfl
  · rw [List.mem_singleton] at hev
    subst hev
    rfl

lemma process_chunk_nonerror (st : StreamState) (c : Chunk) :
    ∀ ev ∈ (process_chunk st c).2, isErrorData ev.data = false := by
  intro ev hev
  cases c with
  | ai content tool_calls =>
    dsimp only [process_chunk] at hev
    rw [List.mem_append] at hev
    rcases hev with hev | hev
    · exact process_chunk_content_nonerror st.tracker content ev hev
    · exact process_tool_calls_nonerror tool_calls _ ev hev
  | toolMsg name content => exact process_tool_result_nonerror st.tracker name content ev hev
  | other => exact absurd hev (List.not_mem_nil ev)

lemma run_chunks_nonerror (cs : List Chunk) :
    ∀ st : StreamState, ∀ ev ∈ (run_chunks st cs).2,
      isErrorData ev.data = false := by
  induction cs with
  | nil => intro st ev hev; exact absurd hev (List.not_mem_nil ev)
  | cons c cs ih =>
    intro st ev hev
    dsimp only [run_chunks] at hev
    rw [List.mem_append] at hev
    rcases hev with hev | hev
    · exact process_chunk_nonerror st c ev hev
    · exact ih (process_chunk st c).1 ev hev

/-- C9: when the upstream transport raises after delivering the turn's
chunks, the stream yields exactly one error event — placed last and
carrying the failure message — and propagates the exception to the
caller; a cleanly ending upstream propagates nothing and yields no error
event, so the transport failure is the only propagating path. -/
theorem stream_events_failure_spec :
    ∀ (chunks : List Chunk) (msg : String),
      (stream_events chunks (some msg)).2 = some msg
    ∧ (stream_events chunks (some msg)).1.getLast? =
        some (StreamEventEmitter.error msg).data
    ∧ countErrorData (stream_events chunks (some msg)).1 = 1
    ∧ dictGet (StreamEventEmitter.error msg).data "message" = some (Json.str msg)
    ∧ (stream_events chunks none).2 = none
    ∧ countErrorData (stream_events chunks none).1 = 0 := by
  intro chunks msg
  have hnone : ∀ d ∈ ((run_chunks ⟨ToolCallTracker.init, ""⟩ chunks).2.map
      (fun ev => ev.data)), ¬(isErrorData d = true) := by
    intro d hd
    obtain ⟨ev, hev, rfl⟩ := List.mem_map.mp hd
    rw [run_chunks_nonerror chunks ⟨ToolCallTracker.init, ""⟩ ev hev]
    exact Bool.false_ne_true
  refine ⟨rfl, ?_, ?_, rfl, rfl, ?_⟩
  · show (((run_chunks ⟨ToolCallTracker.init, ""⟩ chunks).2 ++
      [StreamEventEmitter.error msg]).map (fun ev => ev.data)).getLast? =
      some (StreamEventEmitter.error msg).data
    rw [List.map_append]
    exact List.getLast?_concat _
  · show countErrorData (((run_chunks ⟨ToolCallTracker.init, ""⟩ chunks).2 ++
      [StreamEventEmitter.error msg]).map (fun ev => ev.data)) = 1
    unfold countErrorData
    rw [List.map_append, List.filter_append, List.filter_eq_nil_iff.mpr hnone]
    rfl
  · show countErrorData (((run_chunks ⟨ToolCallTracker.init, ""⟩ chunks).2 ++
      [StreamEventEmitter.done
        (run_chunks ⟨ToolCallTracker.init, ""⟩ chunks).1.full_response]).map
      (fun ev => ev.data)) = 0
    unfold countErrorData
    rw [List.map_append, List.filter_append, List.filter_eq_nil_iff.mpr hnone]
    rfl

end UniqueDeep
